import Mathlib

/-!
Verification of the voice gender detector
(src/src-tauri/src/utils/tts/voice_gender_detector.py).

The core pipeline (chunking, per-chunk analysis, aggregation, scoring) is
embedded shallowly: samples and acoustic features are exact rationals, the
external short-term feature extractor is a parameter returning either a
feature matrix or an exception (`Except String FeatureMatrix`), and the
process-level outcome (stdout, the `error: ...` diagnostic line, exit code)
is an explicit `RunResult` record.
-/

namespace VoiceGender

/-- Per-window summary record produced by `analyze_audio_chunk`:
median fundamental frequency, mean spectral centroid, mean spectral
rolloff, mean zero-crossing rate (the dict returned at the end of
`analyze_audio_chunk`). -/
structure ChunkFeatures where
  median_f0 : ℚ
  spectral_centroid : ℚ
  spectral_rolloff : ℚ
  zcr : ℚ
deriving DecidableEq, Repr

/-- Corpus-level summary computed in Step 5 of `detect_gender`. -/
structure AggregatedFeatures where
  median_f0 : ℚ
  spectral_centroid : ℚ
  spectral_rolloff : ℚ
  zcr : ℚ
deriving DecidableEq, Repr

/-- Result matrix of the external short-term feature extractor
(`aF.feature_extraction`): row 0 is the fundamental-frequency estimate,
row 2 the zero-crossing rate, row 3 the spectral centroid, row 4 the
spectral rolloff; `nFrames` is `F.shape[1]` and every row has that
length (a 2-D numpy array has equal-length rows). -/
structure FeatureMatrix where
  nFrames : ℕ
  f0Row : List ℚ
  zcrRow : List ℚ
  centroidRow : List ℚ
  rolloffRow : List ℚ
  f0_len : f0Row.length = nFrames
  zcr_len : zcrRow.length = nFrames
  centroid_len : centroidRow.length = nFrames
  rolloff_len : rolloffRow.length = nFrames

/-- Arithmetic mean as computed by `np.mean` (exact-rational model). -/
def npMean (l : List ℚ) : ℚ := l.sum / (l.length : ℚ)

/-- Median as computed by `np.median` (exact-rational model): sort the
values; for odd length take the middle element, for even length the
average of the two middle elements. -/
def npMedian (l : List ℚ) : ℚ :=
  let s := l.insertionSort (· ≤ ·)
  let n := l.length
  if n % 2 = 1 then s.getD (n / 2) 0
  else (s.getD (n / 2 - 1) 0 + s.getD (n / 2) 0) / 2

/-- Peak absolute amplitude, `np.max(np.abs(x))` (only used on non-empty
waveforms in the source). -/
def maxAbs (x : List ℚ) : ℚ := (x.map (fun s => |s|)).foldr max 0

/-- Offsets generated by `range(0, len(x) - chunk_size + 1, hop_size)`
for a positive step: `k * hop` for every `k` with
`k * hop ≤ n - chunkSize` (empty when `n < chunkSize`, since the Python
stop value `n - chunkSize + 1` is then nonpositive). -/
def chunkStarts (n chunkSize hop : ℕ) : List ℕ :=
  if n < chunkSize then []
  else (List.range ((n - chunkSize) / hop + 1)).map (fun k => k * hop)

/-- Step 3 of `detect_gender`: split the waveform into 3-second chunks
with 1-second hops (`chunk_size = int(3 * Fs)`, `hop_size = int(1 * Fs)`),
keeping only complete chunks; if that yields no chunk and the waveform is
non-empty, use the entire waveform as the single chunk. -/
def make_chunks (x : List ℚ) (Fs : ℕ) : List (List ℚ) :=
  let chunk_size := 3 * Fs
  let hop_size := 1 * Fs
  let chunks := ((chunkStarts x.length chunk_size hop_size).map
      (fun i => (x.drop i).take chunk_size)).filter
      (fun c => c.length == chunk_size)
  if chunks = [] ∧ 0 < x.length then [x] else chunks

/-- Translation of `analyze_audio_chunk(x, Fs)`. The extractor call
`aF.feature_extraction(x, Fs, 0.050*Fs, 0.025*Fs)` is abstracted as the
`extraction` argument: `Except.error` models an exception raised during
extraction (caught by the `except` clause, yielding `None`). -/
def analyze_audio_chunk (x : List ℚ)
    (extraction : Except String FeatureMatrix) : Option ChunkFeatures :=
  if ∀ s ∈ x, |s| < 1/1000000 then none
  else
    match extraction with
    | .error _ => none
    | .ok F =>
      if F.nFrames = 0 then none
      else
        let f0_values := F.f0Row.filter (fun v => decide (50 < v ∧ v < 300))
        if f0_values.length = 0 then none
        else some
          { median_f0 := npMedian f0_values
            spectral_centroid := npMean F.centroidRow
            spectral_rolloff := npMean F.rolloffRow
            zcr := npMean F.zcrRow }

/-- Step 4 of `detect_gender`: analyze each chunk and keep the non-`None`
results, in order. -/
def chunk_results_of (chunks : List (List ℚ))
    (extractor : List ℚ → Except String FeatureMatrix) : List ChunkFeatures :=
  chunks.filterMap (fun c => analyze_audio_chunk c (extractor c))

/-- Step 5 of `detect_gender`: median across chunks of the per-chunk
median F0; arithmetic mean across chunks of the other three fields. -/
def aggregate_features (rs : List ChunkFeatures) : AggregatedFeatures :=
  { median_f0 := npMedian (rs.map ChunkFeatures.median_f0)
    spectral_centroid := npMean (rs.map ChunkFeatures.spectral_centroid)
    spectral_rolloff := npMean (rs.map ChunkFeatures.spectral_rolloff)
    zcr := npMean (rs.map ChunkFeatures.zcr) }

/-- Scoring block of `detect_gender`: a running score starting at 0.0,
updated by an if/elif chain on the median F0 and two independent checks
on centroid and zero-crossing rate. -/
def gender_score (a : AggregatedFeatures) : ℚ :=
  let s0 : ℚ := 0
  let s1 :=
    if 85 ≤ a.median_f0 ∧ a.median_f0 ≤ 155 then s0 + 2
    else if 155 < a.median_f0 ∧ a.median_f0 ≤ 170 then s0 + 1
    else if 170 < a.median_f0 ∧ a.median_f0 ≤ 255 then s0 - 1
    else s0
  let s2 := if a.spectral_centroid < 1600 then s1 + 1/2 else s1
  if a.zcr < 1/10 then s2 + 1/2 else s2

/-- Scorer as the specification words it: a sum of independent weighted
evidence terms (used to check the claim against `gender_score`). -/
def spec_gender_score (a : AggregatedFeatures) : ℚ :=
  (if 85 ≤ a.median_f0 ∧ a.median_f0 ≤ 155 then (2 : ℚ) else 0)
  + (if 155 < a.median_f0 ∧ a.median_f0 ≤ 170 then (1 : ℚ) else 0)
  + (if 170 < a.median_f0 ∧ a.median_f0 ≤ 255 then (-1 : ℚ) else 0)
  + (if a.spectral_centroid < 1600 then (1/2 : ℚ) else 0)
  + (if a.zcr < 1/10 then (1/2 : ℚ) else 0)

/-- Final decision: `is_male = gender_score > 0.0`, printing `male` or
`female` accordingly. -/
def gender_label (a : AggregatedFeatures) : String :=
  if gender_score a > 0 then "male" else "female"

/-- Observable outcome of one run of `detect_gender`: the lines written
to standard output, the final `error: ...` diagnostic line when the
top-level handler fires (progress diagnostics are not modelled), and the
process exit code. -/
structure RunResult where
  stdoutLines : List String
  errLine : Option String
  exitCode : ℕ
deriving DecidableEq, Repr

/-- Core of `detect_gender` after preprocessing: the loaded waveform `x`
and sample rate `Fs` stand for the result of `wavfile.read`, and
`extractor` for the external feature extractor applied to each chunk.
Each `raise RuntimeError(msg)` is caught by the top-level handler, which
prints `error: msg` to the diagnostic stream and exits with code 1. -/
def detect_gender_core (x : List ℚ) (Fs : ℕ)
    (extractor : List ℚ → Except String FeatureMatrix) : RunResult :=
  if x.length = 0 then
    ⟨[], some "error: Audio file is empty", 1⟩
  else if ∀ s ∈ x, |s| < 1/1000000 then
    ⟨[], some "error: Audio file contains only silence", 1⟩
  else
    let max_amp := maxAbs x
    if 0 < max_amp then
      let xn := x.map (fun s => s / max_amp)
      let chunks := make_chunks xn Fs
      let rs := chunk_results_of chunks extractor
      if rs = [] then
        ⟨[], some "error: Could not analyze any audio chunks", 1⟩
      else
        ⟨[gender_label (aggregate_features rs)], none, 0⟩
    else
      ⟨[], some "error: Audio file has zero amplitude", 1⟩

/-- C1: for every `AggregatedFeatures` input, the gender score computed
by the if/elif chain equals the sum of the independent evidence terms of
the specification (+2 for median F0 in [85, 155], +1 for (155, 170],
-1 for (170, 255], 0 otherwise, +1/2 for centroid < 1600, +1/2 for
ZCR < 1/10), and the label is `male` exactly when the score is strictly
positive, so a score of exactly 0 yields `female`. -/
theorem C1_gender_scorer (a : AggregatedFeatures) :
    gender_score a = spec_gender_score a ∧
    (gender_label a = "male" ↔ 0 < gender_score a) ∧
    (gender_score a = 0 → gender_label a = "female") := by
  refine ⟨?_, ?_, ?_⟩
  · unfold gender_score spec_gender_score
    split_ifs
    all_goals try norm_num
    all_goals exfalso
    all_goals casesm* _ ∧ _
    all_goals linarith
  · unfold gender_label
    constructor
    · intro h
      by_contra hnot
      simp only [not_lt] at hnot
      rw [if_neg (by exact not_lt.mpr hnot)] at h
      exact absurd h (by decide)
    · intro h
      rw [if_pos h]
  · intro h
    unfold gender_label
    rw [if_neg (by rw [h]; exact lt_irrefl 0)]

/-- Membership in the generated start offsets: `i` is a start offset
exactly when it is a multiple of the hop and a full window starting at
`i` still fits. -/
lemma mem_chunkStarts (n cs hop : ℕ) (hhop : 0 < hop) (i : ℕ) :
    i ∈ chunkStarts n cs hop ↔ ∃ k, i = k * hop ∧ i + cs ≤ n := by
  unfold chunkStarts
  split_ifs with h
  · simp only [List.not_mem_nil, false_iff]
    rintro ⟨k, rfl, hk⟩
    omega
  · push_neg at h
    simp only [List.mem_map, List.mem_range]
    constructor
    · rintro ⟨k, hk, rfl⟩
      refine ⟨k, rfl, ?_⟩
      have := (Nat.le_div_iff_mul_le hhop).mp (Nat.lt_succ_iff.mp hk)
      omega
    · rintro ⟨k, rfl, hk⟩
      refine ⟨k, ?_, rfl⟩
      rw [Nat.lt_succ_iff, Nat.le_div_iff_mul_le hhop]
      omega

/-- The generated start offsets are strictly increasing. -/
lemma sorted_chunkStarts (n cs hop : ℕ) (hhop : 0 < hop) :
    (chunkStarts n cs hop).Sorted (· < ·) := by
  unfold chunkStarts
  split_ifs
  · exact List.sorted_nil
  · exact List.Pairwise.map _
      (fun a b hab => mul_lt_mul_of_pos_right hab hhop)
      (List.pairwise_lt_range _)

/-- When at least one full window fits, the chunk list is exactly the
slices at the generated start offsets: the completeness filter drops
nothing and the short-waveform fallback is not taken. -/
lemma make_chunks_of_le (x : List ℚ) (Fs : ℕ) (hFs : 0 < Fs)
    (hlen : 3 * Fs ≤ x.length) :
    make_chunks x Fs =
      (chunkStarts x.length (3 * Fs) (1 * Fs)).map
        (fun i => (x.drop i).take (3 * Fs)) := by
  have hall : ∀ c ∈ (chunkStarts x.length (3 * Fs) (1 * Fs)).map
      (fun i => (x.drop i).take (3 * Fs)), (c.length == 3 * Fs) = true := by
    intro c hc
    simp only [List.mem_map] at hc
    obtain ⟨i, hi, rfl⟩ := hc
    obtain ⟨k, -, hik⟩ := (mem_chunkStarts _ _ _ (by omega) i).mp hi
    simp only [List.length_take, List.length_drop, beq_iff_eq]
    omega
  have h0 : (0 : ℕ) ∈ chunkStarts x.length (3 * Fs) (1 * Fs) :=
    (mem_chunkStarts _ _ _ (by omega) 0).mpr ⟨0, by simp, by omega⟩
  have hne : (chunkStarts x.length (3 * Fs) (1 * Fs)).map
      (fun i => (x.drop i).take (3 * Fs)) ≠ [] :=
    List.ne_nil_of_mem (List.mem_map_of_mem _ h0)
  unfold make_chunks
  simp only []
  rw [List.filter_eq_self.mpr hall, if_neg (fun hc => hne hc.1)]

/-- C2: for every waveform holding at least one full window
(3 x sample_rate samples), the chunker produces exactly the slices of
window length at the start offsets 0, hop, 2 hop, ... for as long as
start + window_length fits, in strictly increasing offset order, and
every produced chunk has exactly the window length (never a short
window). -/
theorem C2_chunker (x : List ℚ) (Fs : ℕ) (hFs : 0 < Fs)
    (hlen : 3 * Fs ≤ x.length) :
    make_chunks x Fs =
      (chunkStarts x.length (3 * Fs) (1 * Fs)).map
        (fun i => (x.drop i).take (3 * Fs)) ∧
    (∀ i, i ∈ chunkStarts x.length (3 * Fs) (1 * Fs) ↔
      ∃ k, i = k * (1 * Fs) ∧ i + 3 * Fs ≤ x.length) ∧
    (chunkStarts x.length (3 * Fs) (1 * Fs)).Sorted (· < ·) ∧
    ∀ c ∈ make_chunks x Fs, c.length = 3 * Fs := by
  refine ⟨make_chunks_of_le x Fs hFs hlen,
    mem_chunkStarts _ _ _ (by omega),
    sorted_chunkStarts _ _ _ (by omega), ?_⟩
  intro c hc
  rw [make_chunks_of_le x Fs hFs hlen] at hc
  simp only [List.mem_map] at hc
  obtain ⟨i, hi, rfl⟩ := hc
  obtain ⟨k, -, hik⟩ := (mem_chunkStarts _ _ _ (by omega) i).mp hi
  simp only [List.length_take, List.length_drop]
  omega

/-- Witness for C2 at the concrete waveform [1, 2, 3, 4] with
sample rate 1: the chunker yields the two full windows. -/
theorem C2_chunker_witness :
    make_chunks [(1 : ℚ), 2, 3, 4] 1 = [[(1 : ℚ), 2, 3], [(2 : ℚ), 3, 4]] := by
  have h := C2_chunker [(1 : ℚ), 2, 3, 4] 1 (by decide) (by decide)
  rw [h.1]
  rfl

/-- C7: for every non-empty waveform shorter than one window length, the
chunker produces exactly one chunk, the entire waveform. -/
theorem C7_short_waveform (x : List ℚ) (Fs : ℕ) (hne : x ≠ [])
    (hshort : x.length < 3 * Fs) :
    make_chunks x Fs = [x] := by
  have h1 : chunkStarts x.length (3 * Fs) (1 * Fs) = [] := by
    unfold chunkStarts
    rw [if_pos hshort]
  unfold make_chunks
  simp only []
  rw [h1]
  simp [List.length_pos, hne]

/-- Witness for C7 at the one-sample waveform [1/2] with sample rate
44100. -/
theorem C7_short_waveform_witness :
    make_chunks [(1 / 2 : ℚ)] 44100 = [[(1 / 2 : ℚ)]] :=
  C7_short_waveform [(1 / 2 : ℚ)] 44100 (by decide) (by decide)

/-- C3: for every window that is not near-silent, whose extraction
yields at least one frame, and whose F0 row has at least one value
strictly between 50 and 300, the analyzer returns the record whose
median F0 is the median of exactly the F0 values strictly between 50
and 300, and whose centroid, rolloff and ZCR fields are the means of
the corresponding rows over all frames, unfiltered; the filtered list
contains exactly the F0-row values strictly between 50 and 300. -/
theorem C3_chunk_analyzer (x : List ℚ) (F : FeatureMatrix)
    (hsil : ¬ ∀ s ∈ x, |s| < 1/1000000)
    (hfr : 0 < F.nFrames)
    (hf0 : ∃ v ∈ F.f0Row, 50 < v ∧ v < 300) :
    analyze_audio_chunk x (.ok F) = some
      { median_f0 := npMedian (F.f0Row.filter (fun v => decide (50 < v ∧ v < 300)))
        spectral_centroid := npMean F.centroidRow
        spectral_rolloff := npMean F.rolloffRow
        zcr := npMean F.zcrRow } ∧
    ∀ v : ℚ, v ∈ F.f0Row.filter (fun v => decide (50 < v ∧ v < 300)) ↔
      (v ∈ F.f0Row ∧ 50 < v ∧ v < 300) := by
  have hmem : ∀ v : ℚ,
      v ∈ F.f0Row.filter (fun v => decide (50 < v ∧ v < 300)) ↔
        (v ∈ F.f0Row ∧ 50 < v ∧ v < 300) := by
    intro v
    simp [List.mem_filter]
  refine ⟨?_, hmem⟩
  have hflt : F.f0Row.filter (fun v => decide (50 < v ∧ v < 300)) ≠ [] := by
    obtain ⟨v, hv, h50, h300⟩ := hf0
    exact List.ne_nil_of_mem ((hmem v).mpr ⟨hv, h50, h300⟩)
  unfold analyze_audio_chunk
  rw [if_neg hsil]
  simp only []
  rw [if_neg (by omega), if_neg (by simpa [List.length_eq_zero] using hflt)]

/-- Feature matrix used to exercise the analyzer on a concrete input:
one frame with F0 100 Hz, ZCR 1/20, centroid 1000, rolloff 2000. -/
def exampleMatrix : FeatureMatrix :=
  ⟨1, [100], [1/20], [1000], [2000], rfl, rfl, rfl, rfl⟩

/-- Witness for C3 at the one-sample window [1] and `exampleMatrix`. -/
theorem C3_chunk_analyzer_witness :
    analyze_audio_chunk [(1 : ℚ)] (.ok exampleMatrix) =
      some ⟨100, 1000, 2000, 1/20⟩ := by
  have h := (C3_chunk_analyzer [(1 : ℚ)] exampleMatrix (by norm_num) (by decide)
    ⟨100, by decide, by decide, by decide⟩).1
  rw [h]
  norm_num [exampleMatrix, npMedian, npMean]

/-- C6: an exception raised by the feature extractor is absorbed inside
the per-window analysis (the window yields `none`), and the surrounding
pipeline simply keeps the results of the remaining windows: the result
list for any chunk list containing the failing window is the
concatenation of the results of the windows before and after it. -/
theorem C6_exception_absorbed (x : List ℚ) (msg : String)
    (pre post : List (List ℚ))
    (extractor : List ℚ → Except String FeatureMatrix)
    (hx : extractor x = .error msg) :
    analyze_audio_chunk x (.error msg) = none ∧
    chunk_results_of (pre ++ x :: post) extractor =
      chunk_results_of pre extractor ++ chunk_results_of post extractor := by
  have hnone : analyze_audio_chunk x (.error msg) = none := by
    unfold analyze_audio_chunk
    split_ifs <;> rfl
  refine ⟨hnone, ?_⟩
  unfold chunk_results_of
  simp only [List.filterMap_append, List.filterMap_cons, hx, hnone]

/-- Witness for C6: with an extractor that always raises, the failing
middle window [1] contributes nothing while the windows around it are
processed as usual. -/
theorem C6_exception_absorbed_witness :
    analyze_audio_chunk [(1 : ℚ)] (.error "boom") = none ∧
    chunk_results_of ([[(3 : ℚ)]] ++ [(1 : ℚ)] :: [[(2 : ℚ)]])
        (fun _ => .error "boom") =
      chunk_results_of [[(3 : ℚ)]] (fun _ => .error "boom") ++
        chunk_results_of [[(2 : ℚ)]] (fun _ => .error "boom") :=
  C6_exception_absorbed [(1 : ℚ)] "boom" [[(3 : ℚ)]] [[(2 : ℚ)]] _ rfl

/-- Arithmetic-mean property of `npMean` over a non-empty list: the
mean times the length gives back the sum. -/
lemma npMean_mul_length (l : List ℚ) (h : l ≠ []) :
    npMean l * (l.length : ℚ) = l.sum := by
  unfold npMean
  rw [div_mul_cancel₀]
  exact_mod_cast fun hc => h (List.length_eq_zero.mp (by exact_mod_cast hc))

/-- The mean is invariant under permutation of the input list. -/
lemma npMean_perm {l l2 : List ℚ} (h : l.Perm l2) : npMean l = npMean l2 := by
  unfold npMean
  rw [h.sum_eq, h.length_eq]

/-- The median is invariant under permutation of the input list: the
sorted arrangements of two permuted lists coincide. -/
lemma npMedian_perm {l l2 : List ℚ} (h : l.Perm l2) : npMedian l = npMedian l2 := by
  unfold npMedian
  have hs : l.insertionSort (· ≤ ·) = l2.insertionSort (· ≤ ·) :=
    List.eq_of_perm_of_sorted
      ((List.perm_insertionSort _ l).trans
        (h.trans (List.perm_insertionSort _ l2).symm))
      (List.sorted_insertionSort _ l) (List.sorted_insertionSort _ l2)
  rw [hs, h.length_eq]

/-- C4: for every non-empty result list, the aggregate record takes the
median of the per-chunk median F0 values (the middle of a sorted
rearrangement, averaging the two middles for even length) and the
arithmetic means of the other three per-chunk fields (mean times count
equals sum). -/
theorem C4_aggregator (rs : List ChunkFeatures) (h : rs ≠ []) :
    (aggregate_features rs).median_f0 =
      npMedian (rs.map ChunkFeatures.median_f0) ∧
    (∃ s : List ℚ, s.Perm (rs.map ChunkFeatures.median_f0) ∧
      s.Sorted (· ≤ ·) ∧
      (aggregate_features rs).median_f0 =
        (if rs.length % 2 = 1 then s.getD (rs.length / 2) 0
         else (s.getD (rs.length / 2 - 1) 0 + s.getD (rs.length / 2) 0) / 2)) ∧
    (aggregate_features rs).spectral_centroid * (rs.length : ℚ) =
      (rs.map ChunkFeatures.spectral_centroid).sum ∧
    (aggregate_features rs).spectral_rolloff * (rs.length : ℚ) =
      (rs.map ChunkFeatures.spectral_rolloff).sum ∧
    (aggregate_features rs).zcr * (rs.length : ℚ) =
      (rs.map ChunkFeatures.zcr).sum := by
  have hmne : ∀ f : ChunkFeatures → ℚ, rs.map f ≠ [] := by
    intro f hc
    exact h (List.map_eq_nil_iff.mp hc)
  have hlen : ∀ f : ChunkFeatures → ℚ, (rs.map f).length = rs.length :=
    fun f => List.length_map rs f
  refine ⟨rfl, ?_, ?_, ?_, ?_⟩
  · refine ⟨(rs.map ChunkFeatures.median_f0).insertionSort (· ≤ ·),
      List.perm_insertionSort _ _, List.sorted_insertionSort _ _, ?_⟩
    show npMedian (rs.map ChunkFeatures.median_f0) = _
    unfold npMedian
    rw [hlen]
  · rw [show (rs.length : ℚ) = ((rs.map ChunkFeatures.spectral_centroid).length : ℚ)
      by rw [hlen]]
    exact npMean_mul_length _ (hmne _)
  · rw [show (rs.length : ℚ) = ((rs.map ChunkFeatures.spectral_rolloff).length : ℚ)
      by rw [hlen]]
    exact npMean_mul_length _ (hmne _)
  · rw [show (rs.length : ℚ) = ((rs.map ChunkFeatures.zcr).length : ℚ)
      by rw [hlen]]
    exact npMean_mul_length _ (hmne _)

/-- Witness for C4 on a concrete two-chunk result list. -/
theorem C4_aggregator_witness :
    ((aggregate_features [⟨100, 1000, 2000, 1/20⟩, ⟨120, 1400, 2400, 1/10⟩]).median_f0 =
        npMedian ([⟨100, 1000, 2000, 1/20⟩,
          (⟨120, 1400, 2400, 1/10⟩ : ChunkFeatures)].map ChunkFeatures.median_f0) ∧
      (∃ s : List ℚ, s.Perm ([⟨100, 1000, 2000, 1/20⟩,
          (⟨120, 1400, 2400, 1/10⟩ : ChunkFeatures)].map ChunkFeatures.median_f0) ∧
        s.Sorted (· ≤ ·) ∧
        (aggregate_features [⟨100, 1000, 2000, 1/20⟩, ⟨120, 1400, 2400, 1/10⟩]).median_f0 =
          (if ([⟨100, 1000, 2000, 1/20⟩,
              (⟨120, 1400, 2400, 1/10⟩ : ChunkFeatures)] : List ChunkFeatures).length % 2 = 1
           then s.getD (([⟨100, 1000, 2000, 1/20⟩,
              (⟨120, 1400, 2400, 1/10⟩ : ChunkFeatures)] : List ChunkFeatures).length / 2) 0
           else (s.getD (([⟨100, 1000, 2000, 1/20⟩,
              (⟨120, 1400, 2400, 1/10⟩ : ChunkFeatures)] : List ChunkFeatures).length / 2 - 1) 0 +
             s.getD (([⟨100, 1000, 2000, 1/20⟩,
              (⟨120, 1400, 2400, 1/10⟩ : ChunkFeatures)] : List ChunkFeatures).length / 2) 0) / 2)) ∧
      (aggregate_features [⟨100, 1000, 2000, 1/20⟩, ⟨120, 1400, 2400, 1/10⟩]).spectral_centroid *
          (([⟨100, 1000, 2000, 1/20⟩,
            (⟨120, 1400, 2400, 1/10⟩ : ChunkFeatures)] : List ChunkFeatures).length : ℚ) =
        ([⟨100, 1000, 2000, 1/20⟩,
          (⟨120, 1400, 2400, 1/10⟩ : ChunkFeatures)].map ChunkFeatures.spectral_centroid).sum ∧
      (aggregate_features [⟨100, 1000, 2000, 1/20⟩, ⟨120, 1400, 2400, 1/10⟩]).spectral_rolloff *
          (([⟨100, 1000, 2000, 1/20⟩,
            (⟨120, 1400, 2400, 1/10⟩ : ChunkFeatures)] : List ChunkFeatures).length : ℚ) =
        ([⟨100, 1000, 2000, 1/20⟩,
          (⟨120, 1400, 2400, 1/10⟩ : ChunkFeatures)].map ChunkFeatures.spectral_rolloff).sum ∧
      (aggregate_features [⟨100, 1000, 2000, 1/20⟩, ⟨120, 1400, 2400, 1/10⟩]).zcr *
          (([⟨100, 1000, 2000, 1/20⟩,
            (⟨120, 1400, 2400, 1/10⟩ : ChunkFeatures)] : List ChunkFeatures).length : ℚ) =
        ([⟨100, 1000, 2000, 1/20⟩,
          (⟨120, 1400, 2400, 1/10⟩ : ChunkFeatures)].map ChunkFeatures.zcr).sum) :=
  C4_aggregator [⟨100, 1000, 2000, 1/20⟩, ⟨120, 1400, 2400, 1/10⟩] (by decide)

/-- C5: aggregation is order-independent: permuting the result list
yields an identical aggregate record. -/
theorem C5_aggregator_perm (rs rs2 : List ChunkFeatures) (h : rs.Perm rs2) :
    aggregate_features rs = aggregate_features rs2 := by
  unfold aggregate_features
  rw [npMedian_perm (h.map ChunkFeatures.median_f0),
    npMean_perm (h.map ChunkFeatures.spectral_centroid),
    npMean_perm (h.map ChunkFeatures.spectral_rolloff),
    npMean_perm (h.map ChunkFeatures.zcr)]

/-- Witness for C5: swapping the two chunks of a concrete result list
leaves the aggregate unchanged. -/
theorem C5_aggregator_perm_witness :
    aggregate_features [⟨100, 1000, 2000, 1/20⟩, ⟨200, 1800, 2500, 1/5⟩] =
      aggregate_features [⟨200, 1800, 2500, 1/5⟩, ⟨100, 1000, 2000, 1/20⟩] :=
  C5_aggregator_perm _ _ (List.Perm.swap _ _ _)

/-- Every sample is bounded in absolute value by the peak amplitude. -/
lemma le_maxAbs : ∀ (x : List ℚ) (s : ℚ), s ∈ x → |s| ≤ maxAbs x := by
  intro x
  induction x with
  | nil => intro s hs; cases hs
  | cons a l ih =>
    intro s hs
    have hstep : maxAbs (a :: l) = max |a| (maxAbs l) := by
      simp [maxAbs]
    rcases List.mem_cons.mp hs with rfl | hs
    · rw [hstep]; exact le_max_left _ _
    · rw [hstep]; exact le_trans (ih s hs) (le_max_right _ _)

/-- A waveform that is not all-silent has strictly positive peak
amplitude. -/
lemma maxAbs_pos_of_not_silent (x : List ℚ)
    (h : ¬ ∀ s ∈ x, |s| < 1/1000000) : 0 < maxAbs x := by
  push_neg at h
  obtain ⟨s, hs, hle⟩ := h
  have h1 := le_maxAbs x s hs
  have h2 : (0 : ℚ) < 1/1000000 := by norm_num
  linarith

/-- The analyzer maps any extraction exception to `none`, regardless of
the window contents. -/
lemma analyze_error_eq_none (x : List ℚ) (msg : String) :
    analyze_audio_chunk x (.error msg) = none := by
  unfold analyze_audio_chunk
  split_ifs <;> rfl

/-- C8: when the waveform is non-empty and not all-silent but every
chunk of the normalized waveform analyzes to `none`, the pipeline fails
with the diagnostic line `error: Could not analyze any audio chunks`,
writes nothing to standard output, and exits with status 1. -/
theorem C8_no_valid_chunks (x : List ℚ) (Fs : ℕ)
    (extractor : List ℚ → Except String FeatureMatrix)
    (hne : x ≠ [])
    (hsil : ¬ ∀ s ∈ x, |s| < 1/1000000)
    (hall : ∀ c ∈ make_chunks (x.map (fun s => s / maxAbs x)) Fs,
      analyze_audio_chunk c (extractor c) = none) :
    detect_gender_core x Fs extractor =
      ⟨[], some "error: Could not analyze any audio chunks", 1⟩ := by
  unfold detect_gender_core
  rw [if_neg (fun hl => hne (List.length_eq_zero.mp hl)), if_neg hsil]
  simp only []
  rw [if_pos (maxAbs_pos_of_not_silent x hsil),
    if_pos (show chunk_results_of
        (make_chunks (x.map (fun s => s / maxAbs x)) Fs) extractor = [] by
      unfold chunk_results_of
      exact List.filterMap_eq_nil_iff.mpr hall)]

/-- Witness for C8: the one-sample waveform [1] with an extractor that
always raises yields the fatal no-valid-chunks outcome. -/
theorem C8_no_valid_chunks_witness :
    detect_gender_core [(1 : ℚ)] 44100 (fun _ => .error "boom") =
      ⟨[], some "error: Could not analyze any audio chunks", 1⟩ :=
  C8_no_valid_chunks [(1 : ℚ)] 44100 (fun _ => .error "boom") (by decide)
    (by norm_num) (fun c _ => analyze_error_eq_none c "boom")

/-- Counterexample for C9 as frozen: the empty waveform vacuously has
every sample below 1e-6 in absolute value, yet the pipeline fails with
the empty-audio diagnostic, not the silence diagnostic. -/
theorem C9_counterexample :
    (([] : List ℚ).all (fun s => decide (|s| < 1/1000000)) = true) ∧
    (detect_gender_core [] 44100 (fun _ => Except.error "e")).errLine =
      some "error: Audio file is empty" ∧
    (detect_gender_core [] 44100 (fun _ => Except.error "e")).errLine ≠
      some "error: Audio file contains only silence" :=
  ⟨rfl, rfl, by decide⟩

/-- C9 (amended with non-emptiness): for every non-empty waveform whose
samples all have absolute value below 1e-6, the pipeline fails with the
silence diagnostic, writes nothing to standard output, and exits with
status 1; the outcome does not depend on the sample rate or the
extractor, showing chunking, analysis, aggregation and scoring are
never reached. -/
theorem C9_silence_error (x : List ℚ) (Fs : ℕ)
    (extractor : List ℚ → Except String FeatureMatrix)
    (hne : x ≠ []) (hsil : ∀ s ∈ x, |s| < 1/1000000) :
    detect_gender_core x Fs extractor =
      ⟨[], some "error: Audio file contains only silence", 1⟩ := by
  unfold detect_gender_core
  rw [if_neg (fun hl => hne (List.length_eq_zero.mp hl)), if_pos hsil]

/-- Witness for C9 at the all-silent one-sample waveform [0]. -/
theorem C9_silence_error_witness :
    detect_gender_core [(0 : ℚ)] 44100 (fun _ => Except.error "e") =
      ⟨[], some "error: Audio file contains only silence", 1⟩ :=
  C9_silence_error [(0 : ℚ)] 44100 (fun _ => Except.error "e") (by decide)
    (by norm_num)

/-- C10: for every waveform passing the silence check (some sample has
absolute value at least 1e-6), the peak amplitude used for
normalization is strictly positive, and the zero-amplitude error branch
is never taken: the run never ends with the zero-amplitude diagnostic. -/
theorem C10_normalization_safe (x : List ℚ) (Fs : ℕ)
    (extractor : List ℚ → Except String FeatureMatrix)
    (h : ∃ s ∈ x, 1/1000000 ≤ |s|) :
    0 < maxAbs x ∧
    (detect_gender_core x Fs extractor).errLine ≠
      some "error: Audio file has zero amplitude" := by
  have hsil : ¬ ∀ s ∈ x, |s| < 1/1000000 := by
    obtain ⟨s, hs, hle⟩ := h
    intro hall
    exact absurd (hall s hs) (not_lt.mpr hle)
  have hpos := maxAbs_pos_of_not_silent x hsil
  have hne : x ≠ [] := by
    obtain ⟨s, hs, -⟩ := h
    exact List.ne_nil_of_mem hs
  refine ⟨hpos, ?_⟩
  unfold detect_gender_core
  rw [if_neg (fun hl => hne (List.length_eq_zero.mp hl)), if_neg hsil]
  simp only []
  rw [if_pos hpos]
  split_ifs
  · decide
  · simp

/-- Witness for C10 at the one-sample waveform [1]. -/
theorem C10_normalization_safe_witness :
    0 < maxAbs [(1 : ℚ)] ∧
    (detect_gender_core [(1 : ℚ)] 44100 (fun _ => Except.error "e")).errLine ≠
      some "error: Audio file has zero amplitude" :=
  C10_normalization_safe [(1 : ℚ)] 44100 (fun _ => Except.error "e")
    (by norm_num)

end VoiceGender
